import Mathlib

/-! Cooperative coroutine runtime: status machine, trampoline and stack commit.

A shallow embedding of `src/src/Coroutine.cpp` and `include/coro/Coroutine.hpp`
(the POSIX build, i.e. the `#else` branches of every `#ifdef _WIN32`).

* Coroutine records live in a list; the position of a record is its identity
  (the C++ `this` pointer).  Position `0` is the record returned by
  `coro::main()`, which the static initialiser of `coroCurrent` creates first.
* `uint64_t` values are natural numbers; subtraction wraps modulo `2 ^ 64`.
* `assert` is active (debug build): a failed assertion ends the run (`fatal`).
* A call of `coroSwapContext` ends the atomic step of the calling coroutine:
  `swapContext` is the code before the call, `swapContextResume` the code
  after it, run when the caller is switched back in.
* The entry closure `func_` is user code; `start` receives it as a function
  from the runtime state in which it is called to its outcome and the runtime
  state in which it finishes.
* `trace` is a ghost log of the externally visible events, in program order.
* What the operating system answers (the address `mmap` returns, whether
  `mprotect` succeeds, the page size) is an argument of the call that asks.
* A call on a position that holds no record has no counterpart in the source
  (a dangling `this`); the model ends it as `fatal`.
* Stack memory is writable only where `mprotect` made it so: the `memcpy` of
  the first frame faults outside the committed range (see `writable`).
-/

namespace coro

/-- Enumeration `Coroutine::Status` (declaration order of the header). -/
inductive Status where
  | NEW
  | RUNNING
  | SUSPENDED
  | DEAD
  | DELETED
  deriving DecidableEq

/-- Numeric value of an enumerator of `Coroutine::Status`. -/
def Status.rank : Status → Nat
  | .NEW => 0
  | .RUNNING => 1
  | .SUSPENDED => 2
  | .DEAD => 3
  | .DELETED => 4

/-- Default of the macro `CORO_STACK_SIZE` in `Common.hpp`. -/
def CORO_STACK_SIZE : Nat := 1048576

/-- Value `(void*)-1` returned by a failed `mmap`. -/
def MAP_FAILED : Nat := 2 ^ 64 - 1

/-- Class `Stack`: the reserved range is `[data_, data_ + size_)`; `data_ = 0`
means that no stack was allocated. -/
structure Stack where
  data_ : Nat
  size_ : Nat
  deriving DecidableEq

/-- Method `Stack::begin()`. -/
def Stack.begin (st : Stack) : Nat := st.data_

/-- Method `Stack::end()`, `data_ + size_` as a 64-bit address. -/
def Stack.end_ (st : Stack) : Nat := (st.data_ + st.size_) % 2 ^ 64

/-- Data members of class `Coroutine` (the closure `func_` is passed to
`start` as an argument). -/
structure Coroutine where
  stackPointer_ : Nat
  status_ : Status
  stack_ : Stack
  deriving DecidableEq

/-- Method `Coroutine::isMain()`: `!stack_.begin()`. -/
def Coroutine.isMain (c : Coroutine) : Bool := c.stack_.begin == 0

/-- Externally visible events, logged in program order. -/
inductive Event where
  | mmap (data size : Nat)
  | munmap (data size : Nat)
  | mprotect (page len : Nat)
  | memcpy (dst : Nat) (words : List Nat)
  | switch (prev next : Nat)
  | throwExit (c : Nat)
  | exitCall (c : Nat)
  deriving DecidableEq

/-- Runtime state of one OS thread: the coroutine records, the global
`coroCurrent`, and the ghost event log. -/
structure Runtime where
  coros : List Coroutine
  coroCurrent : Nat
  trace : List Event
  deriving DecidableEq

/-- Outcome of a runtime call, with the state it leaves.
`returned`: the call came back to its caller without a context switch.
`switched`: `coroSwapContext` was called; the CPU now runs `coroCurrent`.
`threw`: an `ExitException` leaves the call.
`failed`: `std::bad_alloc` leaves the call.
`fatal`: an assertion failed or `abort()` was called. -/
inductive Control where
  | returned (s : Runtime)
  | switched (s : Runtime)
  | threw (s : Runtime)
  | failed (s : Runtime)
  | fatal (s : Runtime)
  deriving DecidableEq

/-- State carried by an outcome. -/
def Control.state : Control → Runtime
  | .returned s => s
  | .switched s => s
  | .threw s => s
  | .failed s => s
  | .fatal s => s

/-- State in which the thread goes on running after a call, when it does. -/
def Control.next? : Control → Option Runtime
  | .returned s => some s
  | .switched s => some s
  | _ => none

/-- Observer `Coroutine::status()` of the record at position `c`. -/
def Runtime.status (s : Runtime) (c : Nat) : Option Status :=
  (s.coros[c]?).map (fun r => r.status_)

/-- Assignment `status_ = v` in the record at position `c`. -/
def Runtime.setStatus (s : Runtime) (c : Nat) (v : Status) : Runtime :=
  { s with coros := s.coros.modify (fun r => { r with status_ := v }) c }

/-- Assignment `coroCurrent = c`. -/
def Runtime.setCurrent (s : Runtime) (c : Nat) : Runtime :=
  { s with coroCurrent := c }

/-- Append one event to the ghost log. -/
def Runtime.log (s : Runtime) (e : Event) : Runtime :=
  { s with trace := s.trace ++ [e] }

/-- Function `coro::main()`: the singleton is the first record. -/
def main : Nat := 0

/-- State after static initialisation: `Coroutine::Coroutine()` built the main
record (`status_ = RUNNING`, `stackPointer_ = 0`, `stack_(0)`) and
`coroCurrent` points to it. -/
def initial : Runtime :=
  { coros := [{ stackPointer_ := 0, status_ := .RUNNING, stack_ := { data_ := 0, size_ := 0 } }],
    coroCurrent := main,
    trace := [] }

/-- Function `pageRound`: `(addr/multiple)*multiple` (never above `addr`, so no
wrap-around). -/
def pageRound (addr multiple : Nat) : Nat := (addr / multiple) * multiple

/-- Result of a call that can end the process: a value, a failed `assert`, or
`abort()`. -/
inductive Checked (α : Type) where
  | ok (a : α)
  | assertion
  | abort
  deriving DecidableEq

/-- Method `Coroutine::commit(addr)` on a coroutine with stack `stack_`;
`psize` is the value of `pageSize()` and `mprotectOk` tells whether the
`mprotect` call succeeds.  On success the result is the `mprotect` call made. -/
def commit (psize : Nat) (mprotectOk : Bool) (stack_ : Stack) (addr : Nat) : Checked Event :=
  let page := pageRound addr psize
  let len := (stack_.end_ + 2 ^ 64 - page) % 2 ^ 64
  if ¬ (page < stack_.end_) then .assertion
  else if ¬ (page ≥ stack_.begin) then .assertion
  else if mprotectOk = false then .abort
  else .ok (.mprotect page len)

/-- Local struct `StackFrame` of `Coroutine::init` (POSIX layout), one 8-byte
slot per field, in declaration order. -/
structure StackFrame where
  r15 : Nat
  r14 : Nat
  r13 : Nat
  r12 : Nat
  r11 : Nat
  r10 : Nat
  r9 : Nat
  r8 : Nat
  rdi : Nat
  rsi : Nat
  rdx : Nat
  rcx : Nat
  rbx : Nat
  rax : Nat
  rbp : Nat
  returnAddr : Nat
  padding : Nat
  deriving DecidableEq

/-- Result of `memset(&frame, 0, sizeof(frame))`. -/
def StackFrame.zeroed : StackFrame :=
  ⟨0, 0, 0, 0, 0, 0, 0, 0, 0, 0, 0, 0, 0, 0, 0, 0, 0⟩

/-- Memory image of a frame: its slots from the lowest address up. -/
def StackFrame.words (f : StackFrame) : List Nat :=
  [f.r15, f.r14, f.r13, f.r12, f.r11, f.r10, f.r9, f.r8, f.rdi, f.rsi, f.rdx,
   f.rcx, f.rbx, f.rax, f.rbp, f.returnAddr, f.padding]

/-- Register slots of a frame (every slot but `returnAddr` and `padding`). -/
def StackFrame.registers (f : StackFrame) : List Nat :=
  [f.r15, f.r14, f.r13, f.r12, f.r11, f.r10, f.r9, f.r8, f.rdi, f.rsi, f.rdx,
   f.rcx, f.rbx, f.rax, f.rbp]

/-- Value of `sizeof(StackFrame)`: seventeen 8-byte slots. -/
def sizeofStackFrame : Nat := 8 * 17

/-- Frame that `Coroutine::init` builds: zeroed, then `returnAddr = coroStart`. -/
def initFrame (coroStart : Nat) : StackFrame :=
  { StackFrame.zeroed with returnAddr := coroStart }

/-- Modelled from the spec: what a write to reserved but uncommitted stack
memory does is decided by the fault handler `coro::fault`, declared in
`Coroutine.hpp` and defined in the absent `Coroutine.Unix.cpp.inc`.  By the
spec the handler grows only the stack of the active coroutine (`coroCurrent`);
any other protection fault ends the process.  `writable page len dst n` tells
whether the `n` bytes at `dst` lie inside the range `[page, page + len)` that
`mprotect` made read/write, so that writing them raises no fault. -/
def writable (page len dst n : Nat) : Bool :=
  decide (page ≤ dst ∧ dst + n ≤ page + len)

/-- Result of `Coroutine::init`: the record and the events of the call, a
failed `assert`, `abort()`, or a protection fault raised by the `memcpy` of
the frame to `dst` after the events `evs` (the record under construction is
not the active coroutine, so the fault ends the process). -/
inductive InitResult where
  | ok (c : Coroutine) (evs : List Event)
  | assertion
  | abort
  | fault (evs : List Event) (dst : Nat)
  deriving DecidableEq

/-- Method `Coroutine::init` on the record `self` (whose `stack_` is already
constructed): sets `status_ = NEW`, commits the page of `end - 1`, builds the
frame and copies it to `stackPointer_ = end - sizeof(frame)`; the copy faults
unless the whole frame lies in the range just committed.  (The assertion on
the offset of `stackPointer_` inside the object is a fact of the compiled
layout and is taken to hold.) -/
def init (psize coroStart : Nat) (mprotectOk : Bool) (self : Coroutine) : InitResult :=
  let c1 : Coroutine := { self with status_ := .NEW }
  let addr := (c1.stack_.end_ + 2 ^ 64 - 1) % 2 ^ 64
  match commit psize mprotectOk c1.stack_ addr with
  | .assertion => .assertion
  | .abort => .abort
  | .ok ev =>
    let page := pageRound addr psize
    let len := (c1.stack_.end_ + 2 ^ 64 - page) % 2 ^ 64
    let frame := initFrame coroStart
    let sp := (c1.stack_.end_ + 2 ^ 64 - sizeofStackFrame) % 2 ^ 64
    if writable page len sp sizeofStackFrame then
      .ok { c1 with stackPointer_ := sp } [ev, .memcpy sp frame.words]
    else .fault [ev] sp

/-- Constructor `Stack::Stack(size)`; `mmapResult` is what `mmap` returns.
`none` stands for the `std::bad_alloc` thrown when `mmap` fails. -/
def Stack.create (size mmapResult : Nat) : Option Stack :=
  if size = 0 then some { data_ := 0, size_ := 0 }
  else if mmapResult = MAP_FAILED then none
  else some { data_ := mmapResult, size_ := size }

/-- Constructor `Coroutine::Coroutine(F func)`: `stack_(size)` then `init`.
The new record is appended, so its identity is the old number of records; when
`init` ends the process no record is added. -/
def create (s : Runtime) (psize coroStart size mmapResult : Nat) (mprotectOk : Bool) : Control :=
  match Stack.create size mmapResult with
  | none => .failed s
  | some st =>
    let s1 := if size = 0 then s else s.log (.mmap st.data_ st.size_)
    match init psize coroStart mprotectOk { stackPointer_ := 0, status_ := .NEW, stack_ := st } with
    | .assertion => .fatal s1
    | .abort => .fatal s1
    | .fault evs _ => .fatal { s1 with trace := s1.trace ++ evs }
    | .ok c evs => .returned { s1 with coros := s1.coros ++ [c], trace := s1.trace ++ evs }

/-- Second half of `Coroutine::swapContext()` before the switch: the `switch`
on `coroCurrent->status_`, the assignment `coroCurrent = this` and the call
`coroSwapContext(current, this)`. -/
def suspendCurrent (s : Runtime) (current this : Nat) : Control :=
  match s.status s.coroCurrent with
  | some .DEAD => .switched ((s.setCurrent this).log (.switch current this))
  | some .RUNNING =>
    .switched (((s.setStatus s.coroCurrent .SUSPENDED).setCurrent this).log (.switch current this))
  | some .DELETED => .switched ((s.setCurrent this).log (.switch current this))
  | some .SUSPENDED => .fatal s
  | some .NEW => .fatal s
  | none => .fatal s

/-- Method `Coroutine::swapContext()` up to and including the call of
`coroSwapContext(current, this)`: the `switch` on `status_`, then
`suspendCurrent`. -/
def swapContext (s : Runtime) (this : Nat) : Control :=
  let current := s.coroCurrent
  match s.status this with
  | some .DELETED => suspendCurrent s current this
  | some .SUSPENDED => suspendCurrent (s.setStatus this .RUNNING) current this
  | some .NEW => suspendCurrent (s.setStatus this .RUNNING) current this
  | some .RUNNING => .returned s
  | some .DEAD => .fatal s
  | none => .fatal s

/-- Method `Coroutine::swapContext()` after `coroSwapContext` returns, that is
when the coroutine that called it is switched back in. -/
def swapContextResume (s : Runtime) : Control :=
  match s.coros[s.coroCurrent]? with
  | none => .fatal s
  | some r =>
    match r.status_ with
    | .DELETED => if !r.isMain then .threw (s.log (.throwExit s.coroCurrent)) else .returned s
    | .RUNNING => .returned s
    | _ => .fatal s

/-- Method `Coroutine::swap()`. -/
def swap (s : Runtime) (this : Nat) : Control := swapContext s this

/-- Function `coro::yield()`: `main()->swap()`. -/
def yield (s : Runtime) : Control := swap s main

/-- Method `Coroutine::exit()`. -/
def exit (s : Runtime) (this : Nat) : Control :=
  let s0 := s.log (.exitCall this)
  if s0.coroCurrent ≠ this then .fatal s0
  else
    match s0.status this with
    | some .DELETED => swap s0 main
    | some .RUNNING => swap (s0.setStatus this .DEAD) main
    | _ => .fatal s0

/-- Way in which the entry closure `func_` finishes. -/
inductive FuncResult where
  | returned
  | threwExit
  | threwOther
  deriving DecidableEq

/-- Method `Coroutine::start()`: runs `func_` in a `try` block, then `exit()`
on normal completion or on `ExitException`, and the assertion failure
"coroutine killed by exception" on any other exception. -/
def start (s : Runtime) (this : Nat) (func_ : Runtime → FuncResult × Runtime) : Control :=
  match func_ s with
  | (.returned, s1) => exit s1 this
  | (.threwExit, s1) => exit s1 this
  | (.threwOther, s1) => .fatal s1

/-- Destructor `Stack::~Stack()` of the stack owned by record `this`. -/
def stackDtor (s : Runtime) (this : Nat) : Runtime :=
  match s.coros[this]? with
  | none => s
  | some r => if r.stack_.data_ ≠ 0 then s.log (.munmap r.stack_.data_ r.stack_.size_) else s

/-- Body of the destructor `Coroutine::~Coroutine()`. -/
def dtorBody (s : Runtime) (this : Nat) : Control :=
  match s.coros[this]? with
  | none => .fatal s
  | some r =>
    if r.stack_.begin = 0 then .returned s
    else if r.status_ ≠ .DEAD ∧ r.status_ ≠ .NEW then
      swapContext (s.setStatus this .DELETED) this
    else .returned s

/-- Destruction of record `this`: the body of `~Coroutine()` and, once it has
returned, the destructor of the member `stack_`.  When the body switches into
the coroutine, the rest runs in `destroyResume`. -/
def destroy (s : Runtime) (this : Nat) : Control :=
  match dtorBody s this with
  | .returned s1 => .returned (stackDtor s1 this)
  | other => other

/-- Rest of the destruction of record `this`, run when the coroutine that
destroys it is switched back in: the end of `swapContext`, then `~Stack()`.
An exception leaving a destructor terminates the process. -/
def destroyResume (s : Runtime) (this : Nat) : Control :=
  match swapContextResume s with
  | .returned s1 => .returned (stackDtor s1 this)
  | .threw s1 => .fatal s1
  | other => other

/-- Operations of the runtime, with the values the environment supplies. -/
inductive Op where
  | create (psize coroStart size mmapResult : Nat) (mprotectOk : Bool)
  | swap (t : Nat)
  | yield
  | exit (c : Nat)
  | destroy (c : Nat)

/-- One operation, run up to its return or its context switch. -/
def step (s : Runtime) : Op → Control
  | .create psize coroStart size mmapResult mprotectOk =>
    create s psize coroStart size mmapResult mprotectOk
  | .swap t => swap s t
  | .yield => yield s
  | .exit c => exit s c
  | .destroy c => destroy s c

/-- States reachable from `initial` by operations that keep the thread running. -/
inductive Reachable : Runtime → Prop where
  | base : Reachable initial
  | next (s : Runtime) (op : Op) (s1 : Runtime) :
      Reachable s → (step s op).next? = some s1 → Reachable s1

/-- Run a list of operations; `none` when one of them ends the run. -/
def run (s : Runtime) : List Op → Option Runtime
  | [] => some s
  | op :: ops =>
    match (step s op).next? with
    | some s1 => run s1 ops
    | none => none

/-- Number of `exitCall c` events in a log. -/
def exitCalls (tr : List Event) (c : Nat) : Nat := tr.count (.exitCall c)

/-- Number of context switches in a log. -/
def switches (tr : List Event) : Nat :=
  (tr.filter (fun e => match e with | .switch _ _ => true | _ => false)).length

/-- Scenario: main creates a coroutine (default stack size, 4 KiB pages),
swaps into it, and the coroutine yields back to main. -/
def demoOps : List Op :=
  [.create 4096 4198400 CORO_STACK_SIZE 139637976727552 true, .swap 1, .yield]

/-- State after the first operation of `demoOps`: coroutine 1 is NEW. -/
def demoNew : Runtime :=
  { coros := [{ stackPointer_ := 0, status_ := .RUNNING, stack_ := { data_ := 0, size_ := 0 } },
              { stackPointer_ := 139637977775992, status_ := .NEW,
                stack_ := { data_ := 139637976727552, size_ := 1048576 } }],
    coroCurrent := 0,
    trace := [.mmap 139637976727552 1048576, .mprotect 139637977772032 4096,
              .memcpy 139637977775992 [0, 0, 0, 0, 0, 0, 0, 0, 0, 0, 0, 0, 0, 0, 0, 4198400, 0]] }

/-- State after the first two operations of `demoOps`: coroutine 1 is RUNNING
and current, main is SUSPENDED. -/
def demoRunning : Runtime :=
  { coros := [{ stackPointer_ := 0, status_ := .SUSPENDED, stack_ := { data_ := 0, size_ := 0 } },
              { stackPointer_ := 139637977775992, status_ := .RUNNING,
                stack_ := { data_ := 139637976727552, size_ := 1048576 } }],
    coroCurrent := 1,
    trace := [.mmap 139637976727552 1048576, .mprotect 139637977772032 4096,
              .memcpy 139637977775992 [0, 0, 0, 0, 0, 0, 0, 0, 0, 0, 0, 0, 0, 0, 0, 4198400, 0],
              .switch 0 1] }

/-- State at the end of `demoOps`: main RUNNING and current, coroutine 1
SUSPENDED. -/
def demoSuspended : Runtime :=
  { coros := [{ stackPointer_ := 0, status_ := .RUNNING, stack_ := { data_ := 0, size_ := 0 } },
              { stackPointer_ := 139637977775992, status_ := .SUSPENDED,
                stack_ := { data_ := 139637976727552, size_ := 1048576 } }],
    coroCurrent := 0,
    trace := [.mmap 139637976727552 1048576, .mprotect 139637977772032 4096,
              .memcpy 139637977775992 [0, 0, 0, 0, 0, 0, 0, 0, 0, 0, 0, 0, 0, 0, 0, 4198400, 0],
              .switch 0 1, .switch 1 0] }

/-- State after main then destroys coroutine 1 (`demoOps` followed by
`destroy 1`): the destructor has switched into the coroutine, which is
DELETED and current, while main is SUSPENDED. -/
def demoTeardown : Runtime :=
  { coros := [{ stackPointer_ := 0, status_ := .SUSPENDED, stack_ := { data_ := 0, size_ := 0 } },
              { stackPointer_ := 139637977775992, status_ := .DELETED,
                stack_ := { data_ := 139637976727552, size_ := 1048576 } }],
    coroCurrent := 1,
    trace := [.mmap 139637976727552 1048576, .mprotect 139637977772032 4096,
              .memcpy 139637977775992 [0, 0, 0, 0, 0, 0, 0, 0, 0, 0, 0, 0, 0, 0, 0, 4198400, 0],
              .switch 0 1, .switch 1 0, .switch 0 1] }

/-- Scenario: main creates coroutines 1 and 2, swaps into 1, which yields, and
then swaps into 2. -/
def nestedOps : List Op :=
  [.create 4096 4198400 CORO_STACK_SIZE 139637976727552 true,
   .create 4096 4198400 CORO_STACK_SIZE 139637977776128 true, .swap 1, .yield, .swap 2]

/-- State at the end of `nestedOps`: coroutine 2 RUNNING and current, main and
coroutine 1 SUSPENDED. -/
def nestedRunning : Runtime :=
  { coros := [{ stackPointer_ := 0, status_ := .SUSPENDED, stack_ := { data_ := 0, size_ := 0 } },
              { stackPointer_ := 139637977775992, status_ := .SUSPENDED,
                stack_ := { data_ := 139637976727552, size_ := 1048576 } },
              { stackPointer_ := 139637978824568, status_ := .RUNNING,
                stack_ := { data_ := 139637977776128, size_ := 1048576 } }],
    coroCurrent := 2,
    trace := [.mmap 139637976727552 1048576, .mprotect 139637977772032 4096,
              .memcpy 139637977775992 [0, 0, 0, 0, 0, 0, 0, 0, 0, 0, 0, 0, 0, 0, 0, 4198400, 0],
              .mmap 139637977776128 1048576, .mprotect 139637978820608 4096,
              .memcpy 139637978824568 [0, 0, 0, 0, 0, 0, 0, 0, 0, 0, 0, 0, 0, 0, 0, 4198400, 0],
              .switch 0 1, .switch 1 0, .switch 0 2] }

/-- State after coroutine 2 then destroys coroutine 1: the destructor has
switched into coroutine 1 (DELETED, current) and coroutine 2 is SUSPENDED
inside `~Coroutine()` of coroutine 1. -/
def nestedInner : Runtime :=
  { coros := [{ stackPointer_ := 0, status_ := .SUSPENDED, stack_ := { data_ := 0, size_ := 0 } },
              { stackPointer_ := 139637977775992, status_ := .DELETED,
                stack_ := { data_ := 139637976727552, size_ := 1048576 } },
              { stackPointer_ := 139637978824568, status_ := .SUSPENDED,
                stack_ := { data_ := 139637977776128, size_ := 1048576 } }],
    coroCurrent := 1,
    trace := [.mmap 139637976727552 1048576, .mprotect 139637977772032 4096,
              .memcpy 139637977775992 [0, 0, 0, 0, 0, 0, 0, 0, 0, 0, 0, 0, 0, 0, 0, 4198400, 0],
              .mmap 139637977776128 1048576, .mprotect 139637978820608 4096,
              .memcpy 139637978824568 [0, 0, 0, 0, 0, 0, 0, 0, 0, 0, 0, 0, 0, 0, 0, 4198400, 0],
              .switch 0 1, .switch 1 0, .switch 0 2, .switch 2 1] }

/-- State after coroutine 1 has thrown, been caught by `start` and exited to
main: main RUNNING and current, coroutine 2 still SUSPENDED inside
`~Coroutine()` of coroutine 1. -/
def nestedSuspended : Runtime :=
  { coros := [{ stackPointer_ := 0, status_ := .RUNNING, stack_ := { data_ := 0, size_ := 0 } },
              { stackPointer_ := 139637977775992, status_ := .DELETED,
                stack_ := { data_ := 139637976727552, size_ := 1048576 } },
              { stackPointer_ := 139637978824568, status_ := .SUSPENDED,
                stack_ := { data_ := 139637977776128, size_ := 1048576 } }],
    coroCurrent := 0,
    trace := [.mmap 139637976727552 1048576, .mprotect 139637977772032 4096,
              .memcpy 139637977775992 [0, 0, 0, 0, 0, 0, 0, 0, 0, 0, 0, 0, 0, 0, 0, 4198400, 0],
              .mmap 139637977776128 1048576, .mprotect 139637978820608 4096,
              .memcpy 139637978824568 [0, 0, 0, 0, 0, 0, 0, 0, 0, 0, 0, 0, 0, 0, 0, 4198400, 0],
              .switch 0 1, .switch 1 0, .switch 0 2,
              .switch 2 1, .throwExit 1, .exitCall 1, .switch 1 0] }

/-- State after main then destroys coroutine 2: the destructor has switched
into coroutine 2, which is DELETED and current. -/
def nestedTeardown : Runtime :=
  { coros := [{ stackPointer_ := 0, status_ := .SUSPENDED, stack_ := { data_ := 0, size_ := 0 } },
              { stackPointer_ := 139637977775992, status_ := .DELETED,
                stack_ := { data_ := 139637976727552, size_ := 1048576 } },
              { stackPointer_ := 139637978824568, status_ := .DELETED,
                stack_ := { data_ := 139637977776128, size_ := 1048576 } }],
    coroCurrent := 2,
    trace := [.mmap 139637976727552 1048576, .mprotect 139637977772032 4096,
              .memcpy 139637977775992 [0, 0, 0, 0, 0, 0, 0, 0, 0, 0, 0, 0, 0, 0, 0, 4198400, 0],
              .mmap 139637977776128 1048576, .mprotect 139637978820608 4096,
              .memcpy 139637978824568 [0, 0, 0, 0, 0, 0, 0, 0, 0, 0, 0, 0, 0, 0, 0, 4198400, 0],
              .switch 0 1, .switch 1 0, .switch 0 2,
              .switch 2 1, .throwExit 1, .exitCall 1, .switch 1 0, .switch 0 2] }

/-- Status change allowed by the life cycle: DEAD and DELETED are final, NEW
is never re-entered, and the only step down in enumerator order is
SUSPENDED to RUNNING. -/
def Allowed (x y : Status) : Prop :=
  ((x = .DEAD ∨ x = .DELETED) → y = x) ∧ (y = .NEW → x = .NEW) ∧
    (y.rank < x.rank → x = .SUSPENDED ∧ y = .RUNNING)

/-- Every record of `s` is still present in `s1`, with an allowed status. -/
def Mono (s s1 : Runtime) : Prop :=
  ∀ c x, s.status c = some x → ∃ y, s1.status c = some y ∧ Allowed x y

/-- The RUNNING coroutines are exactly the one `coroCurrent` points to. -/
def OneRunning (s : Runtime) : Prop :=
  ∀ c, s.status c = some .RUNNING ↔ c = s.coroCurrent

/-- Only the current coroutine can be RUNNING, and it is RUNNING or DELETED. -/
def Inv (s : Runtime) : Prop :=
  (∀ c, s.status c = some .RUNNING → c = s.coroCurrent) ∧
    (s.status s.coroCurrent = some .RUNNING ∨ s.status s.coroCurrent = some .DELETED)

/-- The main record exists, owns no stack, and is RUNNING or SUSPENDED. -/
def MainInv (s : Runtime) : Prop :=
  ∃ r, s.coros[main]? = some r ∧ r.stack_.data_ = 0 ∧
    (r.status_ = .RUNNING ∨ r.status_ = .SUSPENDED)

/-! Theorems. -/

theorem status_setStatus (s : Runtime) (c d : Nat) (v : Status) :
    (s.setStatus c v).status d = if c = d then (s.status d).map (fun _ => v) else s.status d := by
  simp only [Runtime.status, Runtime.setStatus, List.getElem?_modify]
  by_cases h : c = d
  · simp only [h, if_true]
    cases s.coros[d]? <;> rfl
  · simp only [h, if_false]
    cases s.coros[d]? <;> rfl

theorem status_setStatus_same (s : Runtime) (c : Nat) (v x : Status) (h : s.status c = some x) :
    (s.setStatus c v).status c = some v := by
  rw [status_setStatus, if_pos rfl, h]; rfl

theorem status_setStatus_ne (s : Runtime) (c d : Nat) (v : Status) (h : c ≠ d) :
    (s.setStatus c v).status d = s.status d := by
  rw [status_setStatus, if_neg h]

@[simp] theorem coroCurrent_setStatus (s : Runtime) (c : Nat) (v : Status) :
    (s.setStatus c v).coroCurrent = s.coroCurrent := rfl

@[simp] theorem trace_setStatus (s : Runtime) (c : Nat) (v : Status) :
    (s.setStatus c v).trace = s.trace := rfl

@[simp] theorem status_log (s : Runtime) (e : Event) (c : Nat) :
    (s.log e).status c = s.status c := rfl

@[simp] theorem coroCurrent_log (s : Runtime) (e : Event) :
    (s.log e).coroCurrent = s.coroCurrent := rfl

@[simp] theorem coros_log (s : Runtime) (e : Event) : (s.log e).coros = s.coros := rfl

@[simp] theorem trace_log (s : Runtime) (e : Event) : (s.log e).trace = s.trace ++ [e] := rfl

@[simp] theorem status_setCurrent (s : Runtime) (t c : Nat) :
    (s.setCurrent t).status c = s.status c := rfl

@[simp] theorem coroCurrent_setCurrent (s : Runtime) (t : Nat) :
    (s.setCurrent t).coroCurrent = t := rfl

@[simp] theorem trace_setCurrent (s : Runtime) (t : Nat) :
    (s.setCurrent t).trace = s.trace := rfl

@[simp] theorem coros_setCurrent (s : Runtime) (t : Nat) :
    (s.setCurrent t).coros = s.coros := rfl

/-- C3. `swap()` on a coroutine whose status is RUNNING returns at once: no
context switch, the whole runtime state (statuses, current-pointer, event log)
is unchanged, and so is the state after any number of such calls. -/
theorem swap_running_noop (s : Runtime) (t : Nat) (h : s.status t = some .RUNNING) :
    swap s t = .returned s ∧ ∀ n : Nat, (fun x => (swap x t).state)^[n] s = s := by
  have h1 : swap s t = .returned s := by
    simp only [swap, swapContext, h]
  refine ⟨h1, ?_⟩
  intro n
  induction n with
  | zero => rfl
  | succ k ih =>
    rw [Function.iterate_succ_apply]
    simp only [h1, Control.state]
    exact ih

/-- C4. A non-main coroutine that is current and RUNNING, while main is
SUSPENDED, calls `exit()`: its status becomes DEAD, then control goes to main
through one context switch; afterwards `coroCurrent` is main, main is RUNNING,
the exited coroutine is DEAD and no other status changed. -/
theorem exit_running_to_main (s : Runtime) (c : Nat) (hcur : s.coroCurrent = c) (hnm : c ≠ main)
    (hr : s.status c = some .RUNNING) (hm : s.status main = some .SUSPENDED) :
    ∃ s1, exit s c = .switched s1 ∧ s1.coroCurrent = main ∧
      s1.status main = some .RUNNING ∧ s1.status c = some .DEAD ∧
      (∀ d, d ≠ c → d ≠ main → s1.status d = s.status d) ∧
      s1.trace = s.trace ++ [.exitCall c, .switch c main] := by
  have h1 : ((s.log (.exitCall c)).setStatus c .DEAD).status main = some .SUSPENDED := by
    rw [status_setStatus_ne _ _ _ _ hnm]; exact hm
  have h2 : (((s.log (.exitCall c)).setStatus c .DEAD).setStatus main .RUNNING).status c
      = some .DEAD := by
    rw [status_setStatus_ne _ _ _ _ (Ne.symm hnm)]
    exact status_setStatus_same _ _ _ _ hr
  simp only [exit, coroCurrent_log, hcur, ne_eq, not_true_eq_false, if_false, status_log, hr,
    swap, swapContext, suspendCurrent, h1, coroCurrent_setStatus, h2]
  refine ⟨_, rfl, rfl, ?_, ?_, ?_, ?_⟩
  · simp [status_setStatus, hm, hnm]
  · simp [status_setStatus, hnm, Ne.symm hnm, hr]
  · intro d hd1 hd2
    simp [status_setStatus, Ne.symm hd1, Ne.symm hd2]
  · simp

theorem swapContext_trace (s : Runtime) (t : Nat) :
    (swapContext s t).state.trace = s.trace ∨
      (swapContext s t).state.trace = s.trace ++ [.switch s.coroCurrent t] := by
  have h : ∀ s1 : Runtime, s1.trace = s.trace →
      (suspendCurrent s1 s.coroCurrent t).state.trace = s.trace ∨
        (suspendCurrent s1 s.coroCurrent t).state.trace = s.trace ++ [.switch s.coroCurrent t] := by
    intro s1 h1
    unfold suspendCurrent
    split <;> simp [Control.state, h1]
  unfold swapContext
  split
  · exact h _ rfl
  · exact h _ rfl
  · exact h _ rfl
  · left; rfl
  · left; rfl
  · left; rfl

theorem exitCalls_append_switch (tr : List Event) (a b c : Nat) :
    exitCalls (tr ++ [.switch a b]) c = exitCalls tr c := by
  simp [exitCalls, List.count_append, List.count_cons]

theorem exitCalls_append_exitCall (tr : List Event) (c : Nat) :
    exitCalls (tr ++ [.exitCall c]) c = exitCalls tr c + 1 := by
  simp [exitCalls, List.count_append]

theorem swapContext_exitCalls (s : Runtime) (t c : Nat) :
    exitCalls (swapContext s t).state.trace c = exitCalls s.trace c := by
  rcases swapContext_trace s t with h | h <;> rw [h]
  exact exitCalls_append_switch _ _ _ _

theorem exit_exitCalls (s : Runtime) (c : Nat) :
    exitCalls (exit s c).state.trace c = exitCalls s.trace c + 1 := by
  unfold exit
  simp only
  split
  · simp only [Control.state, trace_log, exitCalls_append_exitCall]
  · split
    · rw [swap, swapContext_exitCalls, trace_log, exitCalls_append_exitCall]
    · rw [swap, swapContext_exitCalls, trace_setStatus, trace_log, exitCalls_append_exitCall]
    · simp only [Control.state, trace_log, exitCalls_append_exitCall]

/-- C9. The trampoline `start()` runs the entry closure once, on the state it
is entered in.  If the closure returns or throws `ExitException`, the outcome
is that of one call of `exit()` in the state the closure left (exactly one
more `exitCall` event).  If it throws anything else, the outcome is the fatal
assertion in that very state: `exit()` is not called and nothing is switched. -/
theorem start_outcome (s : Runtime) (this : Nat) (func_ : Runtime → FuncResult × Runtime) :
    ((func_ s).1 = .returned ∨ (func_ s).1 = .threwExit →
      start s this func_ = exit (func_ s).2 this ∧
      exitCalls (start s this func_).state.trace this = exitCalls (func_ s).2.trace this + 1) ∧
    ((func_ s).1 = .threwOther →
      start s this func_ = .fatal (func_ s).2 ∧
      (start s this func_).next? = none ∧
      exitCalls (start s this func_).state.trace this = exitCalls (func_ s).2.trace this ∧
      switches (start s this func_).state.trace = switches (func_ s).2.trace) := by
  constructor
  · intro h
    have he : start s this func_ = exit (func_ s).2 this := by
      rcases hf : func_ s with ⟨r, s1⟩
      rw [hf] at h
      rcases h with h | h <;> simp only at h <;> subst h <;> simp only [start, hf]
    exact ⟨he, by rw [he, exit_exitCalls]⟩
  · intro h
    have he : start s this func_ = .fatal (func_ s).2 := by
      rcases hf : func_ s with ⟨r, s1⟩
      rw [hf] at h
      simp only at h
      subst h
      simp only [start, hf]
    refine ⟨he, ?_, ?_, ?_⟩ <;> rw [he] <;> rfl

theorem allowed_refl (x : Status) : Allowed x x := by
  cases x <;> simp [Allowed]

theorem allowed_trans (x y z : Status) (h1 : Allowed x y) (h2 : Allowed y z) : Allowed x z := by
  cases x <;> cases y <;> cases z <;> simp_all [Allowed, Status.rank]

theorem mono_refl (s : Runtime) : Mono s s :=
  fun _ x hx => ⟨x, hx, allowed_refl x⟩

theorem mono_trans (s s1 s2 : Runtime) (h1 : Mono s s1) (h2 : Mono s1 s2) : Mono s s2 := by
  intro c x hx
  obtain ⟨y, hy, hxy⟩ := h1 c x hx
  obtain ⟨z, hz, hyz⟩ := h2 c y hy
  exact ⟨z, hz, allowed_trans x y z hxy hyz⟩

theorem mono_of_status (s s1 : Runtime) (h : ∀ c, s1.status c = s.status c) : Mono s s1 :=
  fun c x hx => ⟨x, by rw [h c, hx], allowed_refl x⟩

theorem mono_setStatus (s : Runtime) (c : Nat) (v : Status)
    (h : ∀ x, s.status c = some x → Allowed x v) : Mono s (s.setStatus c v) := by
  intro d x hx
  by_cases hcd : c = d
  · subst hcd
    exact ⟨v, status_setStatus_same s c v x hx, h x hx⟩
  · exact ⟨x, by rw [status_setStatus_ne s c d v hcd, hx], allowed_refl x⟩

theorem suspendCurrent_mono (s : Runtime) (a b : Nat) : Mono s (suspendCurrent s a b).state := by
  unfold suspendCurrent
  split
  · exact mono_of_status _ _ (fun _ => rfl)
  · rename_i h
    refine mono_trans _ _ _ (mono_setStatus s s.coroCurrent .SUSPENDED ?_) (mono_of_status _ _ (fun _ => rfl))
    intro x hx
    rw [h] at hx
    cases hx
    simp [Allowed, Status.rank]
  · exact mono_of_status _ _ (fun _ => rfl)
  · exact mono_refl s
  · exact mono_refl s
  · exact mono_refl s

theorem swapContext_mono (s : Runtime) (t : Nat) : Mono s (swapContext s t).state := by
  unfold swapContext
  simp only
  split
  · exact suspendCurrent_mono s _ _
  · rename_i h
    refine mono_trans _ _ _ (mono_setStatus s t .RUNNING ?_) (suspendCurrent_mono _ _ _)
    intro x hx
    rw [h] at hx; cases hx
    simp [Allowed, Status.rank]
  · rename_i h
    refine mono_trans _ _ _ (mono_setStatus s t .RUNNING ?_) (suspendCurrent_mono _ _ _)
    intro x hx
    rw [h] at hx; cases hx
    simp [Allowed, Status.rank]
  · exact mono_refl s
  · exact mono_refl s
  · exact mono_refl s

theorem exit_mono (s : Runtime) (c : Nat) : Mono s (exit s c).state := by
  unfold exit
  simp only
  split
  · exact mono_of_status _ _ (fun _ => rfl)
  · split
    · exact mono_trans _ _ _ (mono_of_status s (s.log (.exitCall c)) (fun _ => rfl))
        (swapContext_mono _ _)
    · rename_i h
      refine mono_trans _ _ _ (mono_of_status s (s.log (.exitCall c)) (fun _ => rfl))
        (mono_trans _ _ _ (mono_setStatus _ c .DEAD ?_) (swapContext_mono _ _))
      intro x hx
      rw [h] at hx; cases hx
      simp [Allowed, Status.rank]
    · exact mono_of_status _ _ (fun _ => rfl)

theorem status_stackDtor (s : Runtime) (c d : Nat) : (stackDtor s c).status d = s.status d := by
  unfold stackDtor
  split
  · rfl
  · split <;> rfl

theorem coroCurrent_stackDtor (s : Runtime) (c : Nat) :
    (stackDtor s c).coroCurrent = s.coroCurrent := by
  unfold stackDtor
  split
  · rfl
  · split <;> rfl

theorem coros_stackDtor (s : Runtime) (c : Nat) : (stackDtor s c).coros = s.coros := by
  unfold stackDtor
  split
  · rfl
  · split <;> rfl

theorem dtorBody_mono (s : Runtime) (c : Nat) : Mono s (dtorBody s c).state := by
  unfold dtorBody
  split
  · exact mono_refl s
  · rename_i r hr
    split
    · exact mono_refl s
    · split
      · rename_i h
        refine mono_trans _ _ _ (mono_setStatus s c .DELETED ?_) (swapContext_mono _ _)
        intro x hx
        have : x = r.status_ := by
          simp only [Runtime.status, hr, Option.map_some', Option.some.injEq] at hx
          exact hx.symm
        subst this
        revert h
        cases r.status_ <;> simp [Allowed, Status.rank]
      · exact mono_refl s

theorem destroy_mono (s : Runtime) (c : Nat) : Mono s (destroy s c).state := by
  have h := dtorBody_mono s c
  unfold destroy
  split
  · rename_i s1 h1
    rw [h1] at h
    exact mono_trans _ _ _ h (mono_of_status _ _ (status_stackDtor s1 c))
  · rename_i h1
    exact h

theorem create_mono (s : Runtime) (p a z m : Nat) (ok : Bool) :
    Mono s (create s p a z m ok).state := by
  unfold create
  split
  · exact mono_refl s
  · rename_i st hst
    have hlog : ∀ d, (if z = 0 then s else s.log (.mmap st.data_ st.size_)).status d = s.status d := by
      intro d; split <;> rfl
    simp only
    split
    · exact mono_of_status _ _ hlog
    · exact mono_of_status _ _ hlog
    · exact mono_of_status _ _ hlog
    · rename_i c evs hc
      intro d x hx
      refine ⟨x, ?_, allowed_refl x⟩
      have hcor : (if z = 0 then s else s.log (.mmap st.data_ st.size_)).coros = s.coros := by
        split <;> rfl
      have hlt : d < s.coros.length := by
        simp only [Runtime.status, Option.map_eq_some'] at hx
        obtain ⟨r, hr, _⟩ := hx
        exact (List.getElem?_eq_some.mp hr).1
      simp only [Control.state, Runtime.status, hcor] at hx ⊢
      rw [List.getElem?_append_left hlt]
      exact hx

theorem step_mono (s : Runtime) (op : Op) : Mono s (step s op).state := by
  cases op with
  | create p a z m ok => exact create_mono s p a z m ok
  | swap t => exact swapContext_mono s t
  | yield => exact swapContext_mono s main
  | exit c => exact exit_mono s c
  | destroy c => exact destroy_mono s c

/-- C7. Under every operation (create, swap, yield, exit, destroy), whatever
its outcome, the status of every coroutine changes monotonically except for
the resume step: a DEAD or DELETED coroutine keeps its status, no coroutine
goes back to NEW, and the only step down in the order NEW, RUNNING, SUSPENDED,
DEAD, DELETED is SUSPENDED to RUNNING. -/
theorem status_monotone (s : Runtime) (op : Op) (c : Nat) (x y : Status)
    (hx : s.status c = some x) (hy : (step s op).state.status c = some y) :
    ((x = .DEAD ∨ x = .DELETED) → y = x) ∧ (y = .NEW → x = .NEW) ∧
      (y.rank < x.rank → x = .SUSPENDED ∧ y = .RUNNING) := by
  obtain ⟨z, hz, ha⟩ := step_mono s op c x hx
  rw [hy] at hz
  cases hz
  exact ha

theorem suspendCurrent_inv (s s1 : Runtime) (a t : Nat)
    (hrun : ∀ c, s.status c = some .RUNNING → c = s.coroCurrent ∨ c = t)
    (ht : s.status t = some .RUNNING ∨ s.status t = some .DELETED)
    (hne : t ≠ s.coroCurrent ∨ s.status t = some .DELETED)
    (hn : (suspendCurrent s a t).next? = some s1) : Inv s1 := by
  unfold suspendCurrent at hn
  split at hn <;> simp only [Control.next?, Option.some.injEq] at hn <;> try cases hn
  · rename_i h
    refine ⟨?_, by simpa using ht⟩
    intro c hc
    simp only [status_log, status_setCurrent, coroCurrent_log, coroCurrent_setCurrent] at hc ⊢
    rcases hrun c hc with h1 | h1
    · rw [h1, h] at hc; cases hc
    · exact h1
  · rename_i h
    have hne2 : t ≠ s.coroCurrent := by
      rcases hne with h1 | h1
      · exact h1
      · intro e; rw [e, h] at h1; cases h1
    constructor
    · intro c hc
      simp only [status_log, status_setCurrent, coroCurrent_log, coroCurrent_setCurrent] at hc ⊢
      by_cases hcc : s.coroCurrent = c
      · subst hcc
        rw [status_setStatus_same _ _ _ _ h] at hc; cases hc
      · rw [status_setStatus_ne _ _ _ _ hcc] at hc
        rcases hrun c hc with h1 | h1
        · exact absurd h1.symm hcc
        · exact h1
    · simp only [status_log, status_setCurrent, coroCurrent_log, coroCurrent_setCurrent]
      rw [status_setStatus_ne _ _ _ _ (Ne.symm hne2)]
      exact ht
  · rename_i h
    refine ⟨?_, by simpa using ht⟩
    intro c hc
    simp only [status_log, status_setCurrent, coroCurrent_log, coroCurrent_setCurrent] at hc ⊢
    rcases hrun c hc with h1 | h1
    · rw [h1, h] at hc; cases hc
    · exact h1

theorem swapContext_inv (s s1 : Runtime) (t : Nat)
    (hi : (∀ c, s.status c = some .RUNNING → c = s.coroCurrent) ∧
      (s.status s.coroCurrent = some .RUNNING ∨ s.status s.coroCurrent = some .DELETED ∨
        s.status s.coroCurrent = some .DEAD))
    (hn : (swapContext s t).next? = some s1) : Inv s1 := by
  unfold swapContext at hn
  simp only at hn
  split at hn
  · rename_i h
    exact suspendCurrent_inv s s1 _ t (fun c hc => Or.inl (hi.1 c hc)) (Or.inr h) (Or.inr h) hn
  · rename_i h
    have hne : t ≠ s.coroCurrent := by
      intro e; rw [e] at h
      rcases hi.2 with h2 | h2 | h2 <;> rw [h] at h2 <;> cases h2
    refine suspendCurrent_inv _ s1 _ t ?_ (Or.inl (status_setStatus_same _ _ _ _ h)) (Or.inl hne) hn
    intro c hc
    by_cases hcc : t = c
    · exact Or.inr hcc.symm
    · rw [status_setStatus_ne _ _ _ _ hcc] at hc
      exact Or.inl (hi.1 c hc)
  · rename_i h
    have hne : t ≠ s.coroCurrent := by
      intro e; rw [e] at h
      rcases hi.2 with h2 | h2 | h2 <;> rw [h] at h2 <;> cases h2
    refine suspendCurrent_inv _ s1 _ t ?_ (Or.inl (status_setStatus_same _ _ _ _ h)) (Or.inl hne) hn
    intro c hc
    by_cases hcc : t = c
    · exact Or.inr hcc.symm
    · rw [status_setStatus_ne _ _ _ _ hcc] at hc
      exact Or.inl (hi.1 c hc)
  · rename_i h
    simp only [Control.next?, Option.some.injEq] at hn
    subst hn
    have := hi.1 t h
    exact ⟨hi.1, Or.inl (this ▸ h)⟩
  · simp [Control.next?] at hn
  · simp [Control.next?] at hn

theorem exit_inv (s s1 : Runtime) (c : Nat) (hi : Inv s)
    (hn : (exit s c).next? = some s1) : Inv s1 := by
  unfold exit at hn
  simp only at hn
  split at hn
  · simp [Control.next?] at hn
  · rename_i hc
    simp only [coroCurrent_log, ne_eq, not_not] at hc
    split at hn
    · refine swapContext_inv (s.log (.exitCall c)) s1 main ⟨hi.1, ?_⟩ hn
      rcases hi.2 with h | h
      · exact Or.inl h
      · exact Or.inr (Or.inl h)
    · rename_i h
      simp only [status_log] at h
      refine swapContext_inv _ s1 main ⟨?_, ?_⟩ hn
      · intro d hd
        by_cases hcd : c = d
        · subst hcd
          rw [status_setStatus_same (s.log (.exitCall c)) c .DEAD .RUNNING h] at hd; cases hd
        · rw [status_setStatus_ne _ _ _ _ hcd] at hd
          exact hi.1 d hd
      · right; right
        simp only [coroCurrent_setStatus, coroCurrent_log, hc]
        exact status_setStatus_same (s.log (.exitCall c)) c .DEAD .RUNNING h
    · simp [Control.next?] at hn

theorem destroy_inv (s s1 : Runtime) (c : Nat) (hi : Inv s)
    (hn : (destroy s c).next? = some s1) : Inv s1 := by
  have key : ∀ s2, (dtorBody s c).next? = some s2 → Inv s2 := by
    intro s2 h2
    unfold dtorBody at h2
    split at h2
    · simp [Control.next?] at h2
    · rename_i r hr
      split at h2
      · simp only [Control.next?, Option.some.injEq] at h2
        subst h2; exact hi
      · split at h2
        · have hst : s.status c = some r.status_ := by simp [Runtime.status, hr]
          have hdel : (s.setStatus c .DELETED).status c = some .DELETED :=
            status_setStatus_same _ _ _ _ hst
          refine swapContext_inv _ s2 c ⟨?_, ?_⟩ h2
          · intro d hd
            by_cases hcd : c = d
            · subst hcd
              rw [hdel] at hd; cases hd
            · rw [status_setStatus_ne _ _ _ _ hcd] at hd
              exact hi.1 d hd
          · simp only [coroCurrent_setStatus]
            by_cases hcc : c = s.coroCurrent
            · rw [← hcc]; exact Or.inr (Or.inl hdel)
            · rw [status_setStatus_ne _ _ _ _ hcc]
              rcases hi.2 with h | h
              · exact Or.inl h
              · exact Or.inr (Or.inl h)
        · simp only [Control.next?, Option.some.injEq] at h2
          subst h2; exact hi
  unfold destroy at hn
  split at hn
  · rename_i s2 h2
    simp only [Control.next?, Option.some.injEq] at hn
    subst hn
    have := key s2 (by rw [h2]; rfl)
    exact ⟨fun d hd => by
        rw [coroCurrent_stackDtor]; rw [status_stackDtor] at hd; exact this.1 d hd,
      by rw [coroCurrent_stackDtor, status_stackDtor]; exact this.2⟩
  · exact key s1 hn

theorem init_status (p a : Nat) (ok : Bool) (self c : Coroutine) (evs : List Event)
    (h : init p a ok self = .ok c evs) : c.status_ = .NEW ∧ c.stack_ = self.stack_ := by
  unfold init at h
  simp only at h
  split at h
  · cases h
  · cases h
  · split at h
    · simp only [InitResult.ok.injEq] at h
      rw [← h.1]
      exact ⟨rfl, rfl⟩
    · cases h

theorem create_inv (s s1 : Runtime) (p a z m : Nat) (ok : Bool) (hi : Inv s)
    (hn : (create s p a z m ok).next? = some s1) : Inv s1 := by
  unfold create at hn
  split at hn
  · simp [Control.next?] at hn
  · rename_i st hst
    simp only at hn
    split at hn
    · simp [Control.next?] at hn
    · simp [Control.next?] at hn
    · simp [Control.next?] at hn
    · rename_i c evs hc
      simp only [Control.next?, Option.some.injEq] at hn
      subst hn
      have hcor : (if z = 0 then s else s.log (.mmap st.data_ st.size_)).coros = s.coros := by
        split <;> rfl
      have hcur : (if z = 0 then s else s.log (.mmap st.data_ st.size_)).coroCurrent
          = s.coroCurrent := by
        split <;> rfl
      have hlt : s.coroCurrent < s.coros.length := by
        have : ∃ x, s.status s.coroCurrent = some x := by
          rcases hi.2 with h | h <;> exact ⟨_, h⟩
        obtain ⟨x, hx⟩ := this
        simp only [Runtime.status, Option.map_eq_some'] at hx
        obtain ⟨r, hr, _⟩ := hx
        exact (List.getElem?_eq_some.mp hr).1
      have hnew := (init_status _ _ _ _ _ _ hc).1
      constructor
      · intro d hd
        simp only [Runtime.status, hcor, hcur] at hd ⊢
        by_cases hdl : d < s.coros.length
        · rw [List.getElem?_append_left hdl] at hd
          exact hi.1 d hd
        · exfalso
          rw [List.getElem?_append_right (Nat.le_of_not_lt hdl)] at hd
          by_cases hd0 : d - s.coros.length = 0
          · rw [hd0] at hd
            simp [hnew] at hd
          · obtain ⟨k, hk⟩ := Nat.exists_eq_succ_of_ne_zero hd0
            rw [hk] at hd
            simp at hd
      · simp only [Runtime.status, hcor, hcur]
        rw [List.getElem?_append_left hlt]
        exact hi.2

theorem step_inv (s s1 : Runtime) (op : Op) (hi : Inv s)
    (hn : (step s op).next? = some s1) : Inv s1 := by
  cases op with
  | create p a z m ok => exact create_inv s s1 p a z m ok hi hn
  | swap t =>
    refine swapContext_inv s s1 t ⟨hi.1, ?_⟩ hn
    rcases hi.2 with h | h
    · exact Or.inl h
    · exact Or.inr (Or.inl h)
  | yield =>
    refine swapContext_inv s s1 main ⟨hi.1, ?_⟩ hn
    rcases hi.2 with h | h
    · exact Or.inl h
    · exact Or.inr (Or.inl h)
  | exit c => exact exit_inv s s1 c hi hn
  | destroy c => exact destroy_inv s s1 c hi hn

theorem initial_inv : Inv initial := by
  constructor
  · intro c hc
    cases c with
    | zero => rfl
    | succ k => simp [Runtime.status, initial] at hc
  · left; rfl

theorem reachable_inv (s : Runtime) (h : Reachable s) : Inv s := by
  induction h with
  | base => exact initial_inv
  | next s op s1 _ hn ih => exact step_inv s s1 op ih hn

/-- C2. In every reachable state, and in every state whose current coroutine
is RUNNING, DEAD or DELETED, when the target is NEW or SUSPENDED the part of
`swap()` before the switch makes the target RUNNING, points `coroCurrent` at
it, turns a RUNNING current coroutine into SUSPENDED, leaves a DEAD or DELETED
one as it is, and changes the status of no other coroutine. -/
theorem swap_pre_switch (s : Runtime) (t : Nat)
    (ht : s.status t = some .NEW ∨ s.status t = some .SUSPENDED)
    (hc : Reachable s ∨ s.status s.coroCurrent = some .RUNNING ∨
      s.status s.coroCurrent = some .DEAD ∨ s.status s.coroCurrent = some .DELETED) :
    ∃ s1, swap s t = .switched s1 ∧ s1.status t = some .RUNNING ∧ s1.coroCurrent = t ∧
      (s.status s.coroCurrent = some .RUNNING → s1.status s.coroCurrent = some .SUSPENDED) ∧
      (s.status s.coroCurrent = some .DEAD ∨ s.status s.coroCurrent = some .DELETED →
        s1.status s.coroCurrent = s.status s.coroCurrent) ∧
      (∀ c, c ≠ t → c ≠ s.coroCurrent → s1.status c = s.status c) ∧
      s1.trace = s.trace ++ [.switch s.coroCurrent t] := by
  have hc : s.status s.coroCurrent = some .RUNNING ∨
      s.status s.coroCurrent = some .DEAD ∨ s.status s.coroCurrent = some .DELETED := by
    rcases hc with h | h
    · rcases (reachable_inv s h).2 with h1 | h1
      · exact Or.inl h1
      · exact Or.inr (Or.inr h1)
    · exact h
  have hne : t ≠ s.coroCurrent := by
    intro e; rw [e] at ht
    rcases ht with ht | ht <;> rcases hc with hc | hc | hc <;> rw [ht] at hc <;> cases hc
  have hcur : (s.setStatus t .RUNNING).status s.coroCurrent = s.status s.coroCurrent :=
    status_setStatus_ne s t _ _ hne
  have htr : ∀ x, s.status t = some x → (s.setStatus t .RUNNING).status t = some .RUNNING :=
    fun x hx => status_setStatus_same s t _ x hx
  rcases ht with ht | ht <;> rcases hc with hc | hc | hc <;>
    simp only [swap, swapContext, suspendCurrent, ht, hc, hcur, coroCurrent_setStatus] <;>
    refine ⟨_, rfl, ?_, rfl, ?_, ?_, ?_, rfl⟩ <;>
    simp [status_setStatus, hne, Ne.symm hne, ht, hc] <;>
    intro c h1 h2 <;> simp [Ne.symm h1, Ne.symm h2]

theorem getElem?_setStatus (s : Runtime) (c d : Nat) (v : Status) :
    (s.setStatus c v).coros[d]? =
      (s.coros[d]?).map (fun r => if c = d then { r with status_ := v } else r) := by
  simp only [Runtime.setStatus, List.getElem?_modify]
  cases s.coros[d]? <;> simp

theorem mainInv_setStatus (s : Runtime) (c : Nat) (v : Status) (hm : MainInv s)
    (hv : c = main → v = .RUNNING ∨ v = .SUSPENDED) : MainInv (s.setStatus c v) := by
  obtain ⟨r, hr, h0, hs⟩ := hm
  by_cases hc : c = main
  · refine ⟨{ r with status_ := v }, ?_, h0, hv hc⟩
    rw [getElem?_setStatus, hr]; simp [hc]
  · refine ⟨r, ?_, h0, hs⟩
    rw [getElem?_setStatus, hr]; simp [hc]

theorem mainInv_of_coros (s s1 : Runtime) (h : s1.coros = s.coros) (hm : MainInv s) :
    MainInv s1 := by
  obtain ⟨r, hr, h0, hs⟩ := hm
  exact ⟨r, by rw [h]; exact hr, h0, hs⟩

theorem mainInv_status (s : Runtime) (hm : MainInv s) :
    s.status main = some .RUNNING ∨ s.status main = some .SUSPENDED := by
  obtain ⟨r, hr, _, hs⟩ := hm
  rcases hs with h | h
  · left; simp [Runtime.status, hr, h]
  · right; simp [Runtime.status, hr, h]

theorem suspendCurrent_mainInv (s s1 : Runtime) (a t : Nat) (hm : MainInv s)
    (hn : (suspendCurrent s a t).next? = some s1) : MainInv s1 := by
  unfold suspendCurrent at hn
  split at hn <;> simp only [Control.next?, Option.some.injEq] at hn <;> try cases hn
  · exact mainInv_of_coros s _ rfl hm
  · exact mainInv_of_coros _ _ rfl (mainInv_setStatus s _ _ hm (fun _ => Or.inr rfl))
  · exact mainInv_of_coros s _ rfl hm

theorem swapContext_mainInv (s s1 : Runtime) (t : Nat) (hm : MainInv s)
    (hn : (swapContext s t).next? = some s1) : MainInv s1 := by
  unfold swapContext at hn
  simp only at hn
  split at hn
  · exact suspendCurrent_mainInv s s1 _ t hm hn
  · exact suspendCurrent_mainInv _ s1 _ t (mainInv_setStatus s _ _ hm (fun _ => Or.inl rfl)) hn
  · exact suspendCurrent_mainInv _ s1 _ t (mainInv_setStatus s _ _ hm (fun _ => Or.inl rfl)) hn
  · simp only [Control.next?, Option.some.injEq] at hn
    subst hn; exact hm
  · simp [Control.next?] at hn
  · simp [Control.next?] at hn

theorem exit_mainInv (s s1 : Runtime) (c : Nat) (hm : MainInv s)
    (hn : (exit s c).next? = some s1) : MainInv s1 := by
  unfold exit at hn
  simp only at hn
  split at hn
  · simp [Control.next?] at hn
  · split at hn
    · exact swapContext_mainInv (s.log (.exitCall c)) s1 main
        (mainInv_of_coros s (s.log (.exitCall c)) rfl hm) hn
    · rename_i h
      simp only [status_log] at h
      by_cases hc : c = main
      · exfalso
        have hd : ((s.log (.exitCall c)).setStatus c .DEAD).status main = some .DEAD := by
          rw [← hc]
          exact status_setStatus_same (s.log (.exitCall c)) c .DEAD .RUNNING h
        simp only [swap, swapContext, hd, Control.next?] at hn
        cases hn
      · exact swapContext_mainInv _ s1 main
          (mainInv_setStatus _ _ _ (mainInv_of_coros s (s.log (.exitCall c)) rfl hm)
            (fun e => absurd e hc)) hn
    · simp [Control.next?] at hn

theorem destroy_mainInv (s s1 : Runtime) (c : Nat) (hm : MainInv s)
    (hn : (destroy s c).next? = some s1) : MainInv s1 := by
  have key : ∀ s2, (dtorBody s c).next? = some s2 → MainInv s2 := by
    intro s2 h2
    unfold dtorBody at h2
    split at h2
    · simp [Control.next?] at h2
    · rename_i r hr
      split at h2
      · simp only [Control.next?, Option.some.injEq] at h2
        subst h2; exact hm
      · rename_i hb
        split at h2
        · refine swapContext_mainInv _ s2 c (mainInv_setStatus s _ _ hm ?_) h2
          intro e
          exfalso
          obtain ⟨r0, hr0, h0, _⟩ := hm
          rw [e, hr0] at hr
          cases hr
          exact hb h0
        · simp only [Control.next?, Option.some.injEq] at h2
          subst h2; exact hm
  unfold destroy at hn
  split at hn
  · rename_i s2 h2
    simp only [Control.next?, Option.some.injEq] at hn
    subst hn
    exact mainInv_of_coros s2 _ (coros_stackDtor s2 c) (key s2 (by rw [h2]; rfl))
  · exact key s1 hn

theorem create_mainInv (s s1 : Runtime) (p a z m : Nat) (ok : Bool) (hm : MainInv s)
    (hn : (create s p a z m ok).next? = some s1) : MainInv s1 := by
  unfold create at hn
  split at hn
  · simp [Control.next?] at hn
  · rename_i st hst
    simp only at hn
    split at hn
    · simp [Control.next?] at hn
    · simp [Control.next?] at hn
    · simp [Control.next?] at hn
    · rename_i c evs hc
      simp only [Control.next?, Option.some.injEq] at hn
      subst hn
      have hcor : (if z = 0 then s else s.log (.mmap st.data_ st.size_)).coros = s.coros := by
        split <;> rfl
      obtain ⟨r, hr, h0, hs⟩ := hm
      refine ⟨r, ?_, h0, hs⟩
      simp only [hcor]
      rw [List.getElem?_append_left (List.getElem?_eq_some.mp hr).1]
      exact hr

theorem step_mainInv (s s1 : Runtime) (op : Op) (hm : MainInv s)
    (hn : (step s op).next? = some s1) : MainInv s1 := by
  cases op with
  | create p a z m ok => exact create_mainInv s s1 p a z m ok hm hn
  | swap t => exact swapContext_mainInv s s1 t hm hn
  | yield => exact swapContext_mainInv s s1 main hm hn
  | exit c => exact exit_mainInv s s1 c hm hn
  | destroy c => exact destroy_mainInv s s1 c hm hn

theorem reachable_mainInv (s : Runtime) (h : Reachable s) : MainInv s := by
  induction h with
  | base => exact ⟨_, rfl, rfl, Or.inl rfl⟩
  | next s op s1 _ hn ih => exact step_mainInv s s1 op ih hn

theorem reachable_run (s s1 : Runtime) (ops : List Op) (h : Reachable s)
    (hr : run s ops = some s1) : Reachable s1 := by
  induction ops generalizing s with
  | nil =>
    simp only [run, Option.some.injEq] at hr
    subst hr; exact h
  | cons op ops ih =>
    simp only [run] at hr
    split at hr
    · rename_i s2 h2
      exact ih s2 (Reachable.next s op s2 h h2) hr
    · cases hr

/-- C6. Destroying a coroutine that is NEW or DEAD, or the main coroutine (the
record without a stack, which is how the destructor recognises it, and in
every reachable state the record `coro::main()` returns), makes no context
switch and changes neither a status nor `coroCurrent`: the call returns at
once, the only effect being the `munmap` of the stack when there is one. -/
theorem destroy_new_dead_main (s : Runtime) (c : Nat) (r : Coroutine) (hr : s.coros[c]? = some r)
    (h : r.status_ = .NEW ∨ r.status_ = .DEAD ∨ r.isMain = true ∨ (c = main ∧ Reachable s)) :
    destroy s c = .returned (stackDtor s c) ∧
      (stackDtor s c).coros = s.coros ∧
      (stackDtor s c).coroCurrent = s.coroCurrent ∧
      (stackDtor s c).trace =
        (if r.stack_.data_ = 0 then s.trace else s.trace ++ [.munmap r.stack_.data_ r.stack_.size_]) ∧
      switches (stackDtor s c).trace = switches s.trace := by
  have h : r.status_ = .NEW ∨ r.status_ = .DEAD ∨ r.isMain = true := by
    rcases h with h | h | h | ⟨hc, hreach⟩
    · exact Or.inl h
    · exact Or.inr (Or.inl h)
    · exact Or.inr (Or.inr h)
    · obtain ⟨r0, hr0, h0, _⟩ := reachable_mainInv s hreach
      rw [hc, hr0] at hr
      cases hr
      right; right
      simp [Coroutine.isMain, Stack.begin, h0]
  have hd : dtorBody s c = .returned s := by
    simp only [dtorBody, hr]
    rcases h with h | h | h
    · simp [h]
    · simp [h]
    · have : r.stack_.begin = 0 := by simpa [Coroutine.isMain] using h
      simp [this]
  refine ⟨by simp only [destroy, hd], ?_⟩
  simp only [stackDtor, hr]
  by_cases h0 : r.stack_.data_ = 0
  · simp [h0]
  · simp [h0, switches, List.filter_append]

theorem demoSuspended_run : run initial demoOps = some demoSuspended := by decide

theorem demoTeardown_run : run initial (demoOps ++ [.destroy 1]) = some demoTeardown := by decide

theorem demoSuspended_reachable : Reachable demoSuspended :=
  reachable_run initial demoSuspended demoOps Reachable.base demoSuspended_run

theorem demoTeardown_reachable : Reachable demoTeardown :=
  reachable_run initial demoTeardown _ Reachable.base demoTeardown_run

/-- C1, as stated, fails: after create, swap, yield and destroy (the forced
teardown of a SUSPENDED coroutine) the current coroutine is DELETED, main is
SUSPENDED, and no coroutine at all is RUNNING. -/
theorem one_running_fails_in_teardown :
    Reachable demoTeardown ∧ run initial (demoOps ++ [.destroy 1]) = some demoTeardown ∧
      demoTeardown.status demoTeardown.coroCurrent = some .DELETED ∧
      (∀ c, demoTeardown.status c ≠ some .RUNNING) ∧ ¬ OneRunning demoTeardown := by
  refine ⟨demoTeardown_reachable, demoTeardown_run, by decide, ?_, ?_⟩
  · intro c
    match c with
    | 0 => decide
    | 1 => decide
    | k + 2 => simp [Runtime.status, demoTeardown]
  · intro h
    have := (h 1).2 rfl
    revert this
    decide

/-- C1, amended. In every reachable state at most one coroutine is RUNNING and
it is the current one; the current coroutine is RUNNING or, during a forced
teardown, DELETED; and whenever it is RUNNING, the RUNNING coroutines are
exactly the current one. -/
theorem reachable_current_running_or_deleted (s : Runtime) (h : Reachable s) :
    (∀ c, s.status c = some .RUNNING → c = s.coroCurrent) ∧
      (s.status s.coroCurrent = some .RUNNING ∨ s.status s.coroCurrent = some .DELETED) ∧
      (s.status s.coroCurrent = some .RUNNING → OneRunning s) := by
  have hi := reachable_inv s h
  refine ⟨hi.1, hi.2, ?_⟩
  intro hr c
  constructor
  · exact hi.1 c
  · intro e; rw [e]; exact hr

/-- C5 fails on the code. After `nestedOps` coroutine 2 destroys coroutine 1:
coroutine 1, suspended in the `yield()` of its closure, is torn down as the
claim says (it throws `ExitException`, `start` catches it, `exit()` switches
to main), which leaves coroutine 2 SUSPENDED inside `~Coroutine()` of
coroutine 1.  Main, RUNNING, then destroys coroutine 2: it is set DELETED and
switched into once, resumes in the rest of that destructor, sees DELETED and
throws `ExitException` out of the destructor, which ends the process: `exit()`
is never called for coroutine 2, control never goes back to main, and its
stack is never unmapped. -/
theorem teardown_inside_destructor_terminates :
    run initial nestedOps = some nestedRunning ∧
      nestedRunning.coroCurrent = 2 ∧
      destroy nestedRunning 1 = .switched nestedInner ∧
      swapContextResume nestedInner = .threw (nestedInner.log (.throwExit 1)) ∧
      exit (nestedInner.log (.throwExit 1)) 1 = .switched nestedSuspended ∧
      swapContextResume nestedSuspended = .returned nestedSuspended ∧
      nestedSuspended.status nestedSuspended.coroCurrent = some .RUNNING ∧
      nestedSuspended.status 2 = some .SUSPENDED ∧
      nestedSuspended.coros[2]?.map Coroutine.isMain = some false ∧
      destroy nestedSuspended 2 = .switched nestedTeardown ∧
      nestedTeardown.status 2 = some .DELETED ∧ nestedTeardown.coroCurrent = 2 ∧
      destroyResume nestedTeardown 1 = .fatal (nestedTeardown.log (.throwExit 2)) ∧
      (destroyResume nestedTeardown 1).next? = none ∧
      exitCalls (destroyResume nestedTeardown 1).state.trace 2 = 0 ∧
      (destroyResume nestedTeardown 1).state.coroCurrent ≠ main ∧
      (destroyResume nestedTeardown 1).state.status main = some .SUSPENDED ∧
      Event.munmap 139637977776128 1048576 ∉ (destroyResume nestedTeardown 1).state.trace := by
  decide

theorem pageRound_le (a p : Nat) : pageRound a p ≤ a :=
  Nat.div_mul_le_self a p

theorem pageRound_dvd (a p : Nat) : p ∣ pageRound a p :=
  Dvd.intro_left (a / p) rfl

theorem le_pageRound_of_dvd (a b p : Nat) (hp : 0 < p) (hb : p ∣ b) (hab : b ≤ a) :
    b ≤ pageRound a p := by
  obtain ⟨k, rfl⟩ := hb
  have hk : k ≤ a / p := (Nat.le_div_iff_mul_le hp).2 (by rw [Nat.mul_comm]; exact hab)
  calc p * k = k * p := Nat.mul_comm p k
    _ ≤ (a / p) * p := Nat.mul_le_mul_right p hk

theorem pageRound_lt_of_dvd (a e p : Nat) (hp : 0 < p) (he : p ∣ e) (h : pageRound a p < e) :
    a < e := by
  by_contra hcon
  exact absurd (le_pageRound_of_dvd a e p hp he (Nat.le_of_not_lt hcon)) (Nat.not_le.mpr h)

theorem pageRound_pred_of_dvd (e p : Nat) (hp : 0 < p) (he : p ∣ e) (hpos : 0 < e) :
    pageRound (e - 1) p = e - p := by
  obtain ⟨k, rfl⟩ := he
  cases k with
  | zero => simp at hpos
  | succ j =>
    have h1 : p * (j + 1) - 1 = p - 1 + p * j := by
      rw [Nat.mul_succ]; omega
    have h2 : (p - 1 + p * j) / p = j := by
      rw [Nat.add_mul_div_left _ _ hp, Nat.div_eq_of_lt (by omega)]
      simp
    unfold pageRound
    rw [h1, h2, Nat.mul_succ, Nat.mul_comm]
    omega

theorem stack_end_eq (st : Stack) (h64 : st.data_ + st.size_ < 2 ^ 64) :
    st.end_ = st.data_ + st.size_ := Nat.mod_eq_of_lt h64

theorem commit_eq (p : Nat) (ok : Bool) (st : Stack) (addr : Nat) :
    commit p ok st addr =
      if pageRound addr p < st.end_ ∧ st.begin ≤ pageRound addr p then
        (if ok = true then
          .ok (.mprotect (pageRound addr p) ((st.end_ + 2 ^ 64 - pageRound addr p) % 2 ^ 64))
        else .abort)
      else .assertion := by
  unfold commit
  by_cases h1 : pageRound addr p < st.end_ <;> by_cases h2 : st.begin ≤ pageRound addr p <;>
    cases ok <;> simp [h1, h2]

theorem commit_passes_iff (p : Nat) (ok : Bool) (st : Stack) (addr : Nat) :
    commit p ok st addr ≠ .assertion ↔
      pageRound addr p < st.end_ ∧ st.begin ≤ pageRound addr p := by
  rw [commit_eq]
  by_cases h : pageRound addr p < st.end_ ∧ st.begin ≤ pageRound addr p
  · cases ok <;> simp [h]
  · simp [h]

/-- C10, as stated, fails when `end` is not a multiple of the page size: with
4 KiB pages and a reserved range of 6144 bytes at the page-aligned address
`139637976727552` (so `end = 139637976733696`), `commit(139637976733796)`
passes both assertions and calls `mprotect(139637976731648, 2048)`, although
the address is not below `end` and not inside the range made read/write. -/
theorem commit_passes_above_end :
    commit 4096 true { data_ := 139637976727552, size_ := 6144 } 139637976733796 =
        .ok (.mprotect 139637976731648 2048) ∧
      (4096 : Nat) ∣ Stack.begin { data_ := 139637976727552, size_ := 6144 } ∧
      Stack.end_ { data_ := 139637976727552, size_ := 6144 } = 139637976733696 ∧
      ¬ (139637976733796 < Stack.end_ { data_ := 139637976727552, size_ := 6144 }) ∧
      ¬ (commit 4096 true { data_ := 139637976727552, size_ := 6144 } 139637976733796
          ≠ .assertion ↔
        Stack.begin { data_ := 139637976727552, size_ := 6144 } ≤ 139637976733796 ∧
          139637976733796 < Stack.end_ { data_ := 139637976727552, size_ := 6144 }) := by
  decide

/-- C10, amended. For a page size `p > 0` and a reserved range whose `begin`
is a multiple of `p`: `commit(addr)` passes its assertions iff `begin ≤ addr`
and `pageRound(addr, p) < end`, which is `begin ≤ addr < end` when `end` is a
multiple of `p` too, and which holds for every `addr` in `[begin, end)`.  When
it passes, the call made is `mprotect(page, end - page)` with
`page = pageRound(addr, p)` (or `abort()` when that call fails): the range is
`[page, end)`, it starts on a page boundary, `begin ≤ page ≤ addr`, and it
contains `addr` when `addr < end`.  When `addr < begin` the outcome is the
failed assertion and no `mprotect` call is made. -/
theorem commit_bounds (p : Nat) (ok : Bool) (st : Stack) (addr : Nat) (hp : 0 < p)
    (hal : p ∣ st.begin) :
    (commit p ok st addr ≠ .assertion ↔
      st.begin ≤ addr ∧ pageRound addr p < st.end_) ∧
    (p ∣ st.end_ →
      (commit p ok st addr ≠ .assertion ↔ st.begin ≤ addr ∧ addr < st.end_)) ∧
    (st.begin ≤ addr → addr < st.end_ → commit p ok st addr ≠ .assertion) ∧
    (commit p ok st addr ≠ .assertion →
      commit p ok st addr =
        (if ok = true then
          .ok (.mprotect (pageRound addr p) (st.end_ - pageRound addr p))
        else .abort) ∧
      pageRound addr p + (st.end_ - pageRound addr p) = st.end_ ∧
      p ∣ pageRound addr p ∧ st.begin ≤ pageRound addr p ∧ pageRound addr p ≤ addr ∧
      pageRound addr p < st.end_) ∧
    (addr < st.begin → commit p ok st addr = .assertion) := by
  have hle := pageRound_le addr p
  have hend : st.end_ < 2 ^ 64 := Nat.mod_lt _ (by positivity)
  have hiff : commit p ok st addr ≠ .assertion ↔
      st.begin ≤ addr ∧ pageRound addr p < st.end_ := by
    rw [commit_passes_iff]
    constructor
    · rintro ⟨h1, h2⟩
      exact ⟨Nat.le_trans h2 hle, h1⟩
    · rintro ⟨h1, h2⟩
      exact ⟨h2, le_pageRound_of_dvd addr st.begin p hp hal h1⟩
  refine ⟨hiff, ?_, ?_, ?_, ?_⟩
  · intro he
    rw [hiff]
    constructor
    · rintro ⟨h1, h2⟩
      exact ⟨h1, pageRound_lt_of_dvd addr st.end_ p hp he h2⟩
    · rintro ⟨h1, h2⟩
      exact ⟨h1, Nat.lt_of_le_of_lt hle h2⟩
  · intro h1 h2
    exact hiff.2 ⟨h1, Nat.lt_of_le_of_lt hle h2⟩
  · intro hpass
    have hb := (commit_passes_iff p ok st addr).1 hpass
    have hlen : (st.end_ + 2 ^ 64 - pageRound addr p) % 2 ^ 64 = st.end_ - pageRound addr p := by
      have : st.end_ + 2 ^ 64 - pageRound addr p = (st.end_ - pageRound addr p) + 2 ^ 64 := by
        omega
      rw [this, Nat.add_mod_right]
      exact Nat.mod_eq_of_lt (by omega)
    refine ⟨?_, by omega, pageRound_dvd addr p, hb.2, hle, hb.1⟩
    rw [commit_eq, if_pos hb, hlen]
  · intro hlt
    by_contra hcon
    have := (hiff.1 hcon).1
    omega

theorem wrap_sub (e n : Nat) (he : e < 2 ^ 64) (hn : n ≤ e) :
    (e + 2 ^ 64 - n) % 2 ^ 64 = e - n := by
  have : e + 2 ^ 64 - n = (e - n) + 2 ^ 64 := by omega
  rw [this, Nat.add_mod_right]
  exact Nat.mod_eq_of_lt (by omega)

/-- C8 fails on the code. With 4 KiB pages and `mmap` reserving 4196 bytes at
the page-aligned address `139637976727552` (so `end = 139637976731748`),
`init` commits only the 100 bytes `[139637976731648, 139637976731748)` of the
top page and then copies the 136-byte frame to `end - 136 = 139637976731612`,
36 bytes below the committed range: the copy faults, the process ends and no
coroutine is created. -/
theorem create_faults_on_short_top_page :
    (4096 : Nat) ∣ 139637976727552 ∧
      Stack.end_ { data_ := 139637976727552, size_ := 4196 } = 139637976731748 ∧
      commit 4096 true { data_ := 139637976727552, size_ := 4196 } (139637976731748 - 1) =
        .ok (.mprotect 139637976731648 100) ∧
      139637976731748 - sizeofStackFrame = 139637976731612 ∧
      ¬ (139637976731648 ≤ 139637976731612) ∧
      init 4096 4198400 true
          { stackPointer_ := 0, status_ := .NEW,
            stack_ := { data_ := 139637976727552, size_ := 4196 } } =
        .fault [.mprotect 139637976731648 100] 139637976731612 ∧
      create initial 4096 4198400 4196 139637976727552 true =
        .fatal
          { coros := initial.coros, coroCurrent := main,
            trace := [.mmap 139637976727552 4196, .mprotect 139637976731648 100] } ∧
      (create initial 4096 4198400 4196 139637976727552 true).next? = none := by
  decide

theorem init_spec (p coroStart : Nat) (self : Coroutine) (hp : 0 < p)
    (hS : 0 < self.stack_.size_) (hal : p ∣ self.stack_.begin)
    (h64 : self.stack_.data_ + self.stack_.size_ < 2 ^ 64) :
    init p coroStart true self =
      if sizeofStackFrame ≤ self.stack_.end_ - pageRound (self.stack_.end_ - 1) p then
        .ok { stackPointer_ := self.stack_.end_ - sizeofStackFrame, status_ := .NEW,
              stack_ := self.stack_ }
          [.mprotect (pageRound (self.stack_.end_ - 1) p)
             (self.stack_.end_ - pageRound (self.stack_.end_ - 1) p),
           .memcpy (self.stack_.end_ - sizeofStackFrame) (initFrame coroStart).words]
      else
        .fault [.mprotect (pageRound (self.stack_.end_ - 1) p)
                  (self.stack_.end_ - pageRound (self.stack_.end_ - 1) p)]
          ((self.stack_.end_ + 2 ^ 64 - sizeofStackFrame) % 2 ^ 64) := by
  have hend : self.stack_.end_ = self.stack_.data_ + self.stack_.size_ := stack_end_eq _ h64
  have hbeg : self.stack_.begin = self.stack_.data_ := rfl
  have hepos : 0 < self.stack_.end_ := by omega
  have helt : self.stack_.end_ < 2 ^ 64 := by omega
  have haddr : (self.stack_.end_ + 2 ^ 64 - 1) % 2 ^ 64 = self.stack_.end_ - 1 :=
    wrap_sub _ 1 helt hepos
  have hle := pageRound_le (self.stack_.end_ - 1) p
  have hge : self.stack_.begin ≤ pageRound (self.stack_.end_ - 1) p :=
    le_pageRound_of_dvd _ _ p hp hal (by omega)
  have hlt : pageRound (self.stack_.end_ - 1) p < self.stack_.end_ := by omega
  have hlen : (self.stack_.end_ + 2 ^ 64 - pageRound (self.stack_.end_ - 1) p) % 2 ^ 64 =
      self.stack_.end_ - pageRound (self.stack_.end_ - 1) p :=
    wrap_sub _ _ helt (Nat.le_of_lt hlt)
  have hcommit : commit p true self.stack_ (self.stack_.end_ - 1) =
      .ok (.mprotect (pageRound (self.stack_.end_ - 1) p)
        (self.stack_.end_ - pageRound (self.stack_.end_ - 1) p)) := by
    rw [commit_eq, if_pos ⟨hlt, hge⟩, hlen]
    rfl
  have hsz : sizeofStackFrame = 136 := rfl
  simp only [init, haddr, hcommit, hlen]
  by_cases hfit : sizeofStackFrame ≤ self.stack_.end_ - pageRound (self.stack_.end_ - 1) p
  · have hsp : (self.stack_.end_ + 2 ^ 64 - sizeofStackFrame) % 2 ^ 64 =
        self.stack_.end_ - sizeofStackFrame := wrap_sub _ _ helt (by omega)
    have hw : writable (pageRound (self.stack_.end_ - 1) p)
        (self.stack_.end_ - pageRound (self.stack_.end_ - 1) p)
        (self.stack_.end_ - sizeofStackFrame) sizeofStackFrame = true := by
      simp only [writable, decide_eq_true_eq]
      omega
    simp only [hsp, hw, if_pos hfit, if_true]
  · have hw : writable (pageRound (self.stack_.end_ - 1) p)
        (self.stack_.end_ - pageRound (self.stack_.end_ - 1) p)
        ((self.stack_.end_ + 2 ^ 64 - sizeofStackFrame) % 2 ^ 64) sizeofStackFrame = false := by
      simp only [writable, decide_eq_false_iff_not]
      by_cases h : sizeofStackFrame ≤ self.stack_.end_
      · rw [wrap_sub _ _ helt h]
        omega
      · have hwrap : (self.stack_.end_ + 2 ^ 64 - sizeofStackFrame) % 2 ^ 64 =
            self.stack_.end_ + 2 ^ 64 - sizeofStackFrame :=
          Nat.mod_eq_of_lt (by omega)
        rw [hwrap]
        omega
    simp only [hw, if_neg hfit]
    simp

/-- What creating a coroutine does, for a stack size `S > 0`, a page size
`p > 0`, `mprotect` succeeding and a range `[begin, begin + S)` reserved at a
multiple of `p`: when the part `[pageRound(end - 1, p), end)` of the top page
holds the 136-byte frame, a NEW record is appended whose `stackPointer_` is
`end - 136`, where the frame (register slots zero, `returnAddr = coroStart`)
was copied; otherwise the copy faults and no record is added.  Whenever `S` is
a multiple of `p` and `p ≥ 136` the frame fits. -/
theorem create_frame (s : Runtime) (p coroStart S begin : Nat) (hp : 0 < p) (hS : 0 < S)
    (hal : p ∣ begin) (h64 : begin + S < 2 ^ 64) :
    create s p coroStart S begin true =
      (if sizeofStackFrame ≤ begin + S - pageRound (begin + S - 1) p then
        .returned
          { coros := s.coros ++
              [{ stackPointer_ := begin + S - sizeofStackFrame, status_ := .NEW,
                 stack_ := { data_ := begin, size_ := S } }],
            coroCurrent := s.coroCurrent,
            trace := s.trace ++
              [.mmap begin S,
               .mprotect (pageRound (begin + S - 1) p) (begin + S - pageRound (begin + S - 1) p),
               .memcpy (begin + S - sizeofStackFrame) (initFrame coroStart).words] }
      else
        .fatal
          { coros := s.coros, coroCurrent := s.coroCurrent,
            trace := s.trace ++
              [.mmap begin S,
               .mprotect (pageRound (begin + S - 1) p)
                 (begin + S - pageRound (begin + S - 1) p)] }) ∧
      (∀ x ∈ (initFrame coroStart).registers, x = 0) ∧
      (initFrame coroStart).words[15]? = some coroStart ∧
      8 * (initFrame coroStart).words.length = sizeofStackFrame ∧
      (p ∣ S → sizeofStackFrame ≤ p →
        sizeofStackFrame ≤ begin + S - pageRound (begin + S - 1) p) := by
  have hS0 : S ≠ 0 := Nat.pos_iff_ne_zero.mp hS
  have hmf : begin ≠ MAP_FAILED := by
    have : MAP_FAILED = 2 ^ 64 - 1 := rfl
    omega
  have hst : Stack.create S begin = some { data_ := begin, size_ := S } := by
    simp [Stack.create, hS0, hmf]
  have hend : Stack.end_ { data_ := begin, size_ := S } = begin + S := Nat.mod_eq_of_lt h64
  have hinit := init_spec p coroStart ⟨0, .NEW, ⟨begin, S⟩⟩ hp hS hal h64
  simp only [hend] at hinit
  refine ⟨?_, ?_, rfl, rfl, ?_⟩
  · by_cases hfit : sizeofStackFrame ≤ begin + S - pageRound (begin + S - 1) p
    · rw [if_pos hfit] at hinit
      simp only [create, hst, hinit, hS0, if_false, if_pos hfit, coros_log, trace_log,
        coroCurrent_log, List.append_assoc, List.singleton_append]
    · rw [if_neg hfit] at hinit
      simp only [create, hst, hinit, hS0, if_false, if_neg hfit, coros_log, trace_log,
        coroCurrent_log, List.append_assoc, List.singleton_append]
  · intro x hx
    simp only [StackFrame.registers, initFrame, StackFrame.zeroed, List.mem_cons,
      List.mem_singleton, List.not_mem_nil, or_false, or_self] at hx
    exact hx
  · intro hdS hpf
    have hde : p ∣ begin + S := Nat.dvd_add hal hdS
    have hpe : p ≤ begin + S := Nat.le_of_dvd (by omega) hde
    rw [pageRound_pred_of_dvd _ p hp hde (by omega)]
    omega

theorem demoNew_run : run initial (demoOps.take 1) = some demoNew := by decide

theorem demoRunning_run : run initial (demoOps.take 2) = some demoRunning := by decide

/-- Witness for C1 (amended): in the reachable state `demoSuspended` the
RUNNING coroutines are exactly the current one. -/
theorem reachable_current_witness :
    Reachable demoSuspended ∧ OneRunning demoSuspended :=
  ⟨demoSuspended_reachable,
    (reachable_current_running_or_deleted demoSuspended demoSuspended_reachable).2.2
      (by decide)⟩

/-- Witness for C2: main, RUNNING, swaps into the SUSPENDED coroutine 1. -/
theorem swap_pre_switch_witness :
    demoSuspended.status 1 = some .SUSPENDED ∧ Reachable demoSuspended ∧
      ∃ s1, swap demoSuspended 1 = .switched s1 ∧ s1.status 1 = some .RUNNING ∧
        s1.coroCurrent = 1 ∧ s1.status 0 = some .SUSPENDED :=
  ⟨by decide, demoSuspended_reachable,
    match swap_pre_switch demoSuspended 1 (Or.inr (by decide))
      (Or.inl demoSuspended_reachable) with
    | ⟨s1, h1, h2, h3, h4, _⟩ => ⟨s1, h1, h2, h3, h4 (by decide)⟩⟩

/-- Witness for C3: main swaps into itself in the initial state. -/
theorem swap_running_noop_witness :
    initial.status main = some .RUNNING ∧ swap initial main = .returned initial ∧
      (fun x => (swap x main).state)^[3] initial = initial :=
  ⟨by decide, (swap_running_noop initial main (by decide)).1,
    (swap_running_noop initial main (by decide)).2 3⟩

/-- Witness for C4: coroutine 1, current and RUNNING, exits while main is
SUSPENDED. -/
theorem exit_running_to_main_witness :
    demoRunning.coroCurrent = 1 ∧ demoRunning.status 1 = some .RUNNING ∧
      demoRunning.status main = some .SUSPENDED ∧
      ∃ s1, exit demoRunning 1 = .switched s1 ∧ s1.coroCurrent = main ∧
        s1.status main = some .RUNNING ∧ s1.status 1 = some .DEAD :=
  ⟨rfl, by decide, by decide,
    match exit_running_to_main demoRunning 1 rfl (by decide) (by decide) (by decide) with
    | ⟨s1, h1, h2, h3, h4, _⟩ => ⟨s1, h1, h2, h3, h4⟩⟩

/-- Witness for C6: destroying the NEW coroutine 1 of `demoNew` only unmaps
its stack. -/
theorem destroy_new_dead_main_witness :
    demoNew.status 1 = some .NEW ∧
      destroy demoNew 1 = .returned (demoNew.log (.munmap 139637976727552 1048576)) ∧
      switches (stackDtor demoNew 1).trace = switches demoNew.trace :=
  ⟨by decide,
    (destroy_new_dead_main demoNew 1
      ⟨139637977775992, .NEW, ⟨139637976727552, 1048576⟩⟩ rfl (Or.inl rfl)).1.trans (by decide),
    (destroy_new_dead_main demoNew 1
      ⟨139637977775992, .NEW, ⟨139637976727552, 1048576⟩⟩ rfl (Or.inl rfl)).2.2.2.2⟩

/-- Witness for C7: resuming the SUSPENDED coroutine 1 is the one step down,
SUSPENDED to RUNNING. -/
theorem status_monotone_witness :
    demoSuspended.status 1 = some .SUSPENDED ∧
      (step demoSuspended (.swap 1)).state.status 1 = some .RUNNING ∧
      (Status.RUNNING.rank < Status.SUSPENDED.rank →
        Status.SUSPENDED = .SUSPENDED ∧ Status.RUNNING = .RUNNING) :=
  ⟨by decide, by decide,
    (status_monotone demoSuspended (.swap 1) 1 .SUSPENDED .RUNNING (by decide) (by decide)).2.2⟩

/-- Witness for C10 (amended): the fault address one page below the top of the
default stack. -/
theorem commit_bounds_witness :
    (4096 : Nat) ∣ Stack.begin { data_ := 139637976727552, size_ := 1048576 } ∧
      commit 4096 true { data_ := 139637976727552, size_ := 1048576 } 139637977770000 =
        .ok (.mprotect 139637977767936 8192) ∧
      (commit 4096 true { data_ := 139637976727552, size_ := 1048576 } 139637977770000
          ≠ .assertion ↔
        Stack.begin { data_ := 139637976727552, size_ := 1048576 } ≤ 139637977770000 ∧
          139637977770000 < Stack.end_ { data_ := 139637976727552, size_ := 1048576 }) :=
  ⟨by decide, by decide,
    (commit_bounds 4096 true { data_ := 139637976727552, size_ := 1048576 } 139637977770000
      (by decide) (by decide)).2.1 (by decide)⟩

/-- Witness for C9: a closure that returns at once, run by coroutine 1 of
`demoRunning`; `start` behaves as one call of `exit()`. -/
theorem start_outcome_witness :
    start demoRunning 1 (fun s => (.returned, s)) = exit demoRunning 1 ∧
      start demoRunning 1 (fun s => (.threwOther, s)) = .fatal demoRunning :=
  ⟨((start_outcome demoRunning 1 (fun s => (.returned, s))).1 (Or.inl rfl)).1,
    ((start_outcome demoRunning 1 (fun s => (.threwOther, s))).2 rfl).1⟩

end coro
